import Mathlib

/-!
Shallow embedding of the GreatSoft office-import pipeline
(`GreatSoftImplementation` in the repository's main source file):
row normalization (`mapExcelToSQL`), validation (`validateOfficeData`),
identifier reconciliation and per-row persistence (`importOffices`).

External collaborators are abstracted as data: the Excel reader's outcome
is an `Except String (List SqlRow)`, the database insert of the k-th record
is an oracle `Nat → Option String` (`none` = success, `some msg` = the
thrown error's message), and connection establishment is an
`Option String` fault. Machine strings are Lean `String`s; JavaScript
`null`/`undefined` cell contents are both modelled by `CellValue.null`
(the reader is configured with `defval: null`, so absent cells arrive as
explicit nulls).
-/

/-- A cell / property value: an explicit null or a string. -/
inductive CellValue where
  | null : CellValue
  | str : String → CellValue
deriving DecidableEq

/-- JavaScript truthiness of a cell value: `null` and `""` are falsy. -/
def truthy : CellValue → Bool
  | .null => false
  | .str s => !(s == "")

/-- The string carried by a cell value (`""` for null; only ever used on
truthy values, mirroring the source's unchecked string operations). -/
def cellStr : CellValue → String
  | .null => ""
  | .str s => s

/-- A row object: ordered association list from property name to value,
modelling a JavaScript object (access on a missing key yields null). -/
abbrev SqlRow := List (String × CellValue)

/-- Property read `row[key]` (missing property reads as null/undefined). -/
def getVal : SqlRow → String → CellValue
  | [], _ => .null
  | (k, v) :: rest, key => if k = key then v else getVal rest key

/-- Property write `row[key] = v` (overwrites the property, adds it when absent). -/
def setVal : SqlRow → String → CellValue → SqlRow
  | [], key, v => [(key, v)]
  | (k, w) :: rest, key, v =>
    if k = key then (k, v) :: rest else (k, w) :: setVal rest key v

/-- `row.OfficeCode`. -/
def officeCode (r : SqlRow) : CellValue := getVal r "OfficeCode"

/-- `row.OfficeDesc`. -/
def officeDesc (r : SqlRow) : CellValue := getVal r "OfficeDesc"

/-- `s.substring(0, n)` on JavaScript strings (clamps at the end). -/
def strTake (s : String) (n : Nat) : String := String.mk (s.data.take n)

/-- Characters kept by the source's `replace(/[^A-Z0-9]/g, "")`. -/
def isCodeChar (c : Char) : Bool := ('A' ≤ c && c ≤ 'Z') || ('0' ≤ c && c ≤ '9')

/-- `s.toUpperCase()` (ASCII-level model). -/
def strUpper (s : String) : String := String.mk (s.data.map Char.toUpper)

/-- `s.replace(/[^A-Z0-9]/g, "")`: strip everything but ASCII capitals and digits. -/
def stripNonCode (s : String) : String := String.mk (s.data.filter isCodeChar)

/-- The base code candidate of `importOffices`:
`office.OfficeDesc.substring(0, 10).toUpperCase().replace(/[^A-Z0-9]/g, "")` —
note the truncation happens before uppercasing and stripping. -/
def baseCodeOf (desc : String) : String := stripNonCode (strUpper (strTake desc 10))

/-- `counter.toString().padStart(2, "0")`. -/
def pad2 (n : Nat) : String :=
  let s := toString n
  if s.length < 2 then String.mk (List.replicate (2 - s.length) '0') ++ s else s

/-- Does the character list start with the given pattern? -/
def startsWithL : List Char → List Char → Bool
  | _, [] => true
  | [], _ :: _ => false
  | c :: s, d :: p => c == d && startsWithL s p

/-- Does the character list contain the pattern as a contiguous run? -/
def hasSubstr : List Char → List Char → Bool
  | [], pat => pat.isEmpty
  | c :: rest, pat => startsWithL (c :: rest) pat || hasSubstr rest pat

/-- JavaScript `s.includes(pat)`. -/
def strIncludes (s pat : String) : Bool := hasSubstr s.data pat.data

/-- Sentinel null handling of `mapExcelToSQL`:
`if (value === "NULL" || value === "null") value = null` — note the
comparison is by exact (case-sensitive) string equality. -/
def normalizeCell (v : CellValue) : CellValue :=
  if v = .str "NULL" ∨ v = .str "null" then .null else v

/-- `mapExcelToSQL(excelRow, mappings)`: build the SQL row by copying each
mapped column, converting the textual null sentinels to explicit null. -/
def mapExcelToSQL (excelRow : SqlRow) (mappings : List (String × String)) : SqlRow :=
  mappings.map (fun p => (p.2, normalizeCell (getVal excelRow p.1)))

/-- The fixed `columnMap` of `importOffices` (identity on 14 office columns). -/
def columnMap : List (String × String) :=
  [("OfficeCode", "OfficeCode"), ("OfficeDesc", "OfficeDesc"),
   ("OfficePAddress", "OfficePAddress"), ("OfficeBussAdd", "OfficeBussAdd"),
   ("OfficeTel", "OfficeTel"), ("OfficeFax", "OfficeFax"),
   ("OfficeBank", "OfficeBank"), ("OfficeBranch", "OfficeBranch"),
   ("OfficeBranchNo", "OfficeBranchNo"), ("OfficeBankAcc", "OfficeBankAcc"),
   ("OfficeRegNo", "OfficeRegNo"), ("OfficeTaxNo", "OfficeTaxNo"),
   ("OfficeURL", "OfficeURL"), ("OfficeEmail", "OfficeEmail")]

/-- A validation error record. -/
structure ValidationError where
  row : Nat
  field : String
  value : CellValue
  message : String
deriving DecidableEq

/-- Header / placeholder sentinel guard of `validateOfficeData`:
`row.OfficeCode === "OfficeCode" || row.OfficeCode === "Data" || row.OfficeCode === "Context"`. -/
def isHeaderSentinel (v : CellValue) : Bool :=
  decide (v = .str "OfficeCode" ∨ v = .str "Data" ∨ v = .str "Context")

/-- One iteration of the `validateOfficeData` loop: the errors pushed for
this row, and the updated set of codes seen so far. -/
def validateRow (row : SqlRow) (actualRow : Nat) (seen : List String) :
    List ValidationError × List String :=
  let code := officeCode row
  let desc := officeDesc row
  if isHeaderSentinel code then ([], seen)
  else
    let e1 := if truthy code then [] else
      [⟨actualRow, "OfficeCode", code,
        "Office Code is required and will be auto-generated if missing"⟩]
    let e2 := if truthy desc then [] else
      [⟨actualRow, "OfficeDesc", desc, "Office Name is required"⟩]
    let e3 := if truthy code ∧ cellStr code ∈ seen then
      [⟨actualRow, "OfficeCode", code, "Duplicate Office Code: " ++ cellStr code⟩]
      else []
    let seen2 := if truthy code then cellStr code :: seen else seen
    let e4 := if truthy code ∧ 10 < (cellStr code).length then
      [⟨actualRow, "OfficeCode", code, "Office Code must be 10 characters or less"⟩]
      else []
    let e5 := if truthy desc ∧ 100 < (cellStr desc).length then
      [⟨actualRow, "OfficeDesc", desc, "Office Name must be 100 characters or less"⟩]
      else []
    (e1 ++ e2 ++ e3 ++ e4 ++ e5, seen2)

/-- The `data.forEach` loop of `validateOfficeData`, threading the index and
the seen-codes set; returns the accumulated errors and the final set. -/
def validateList (rowOffset : Nat) :
    List SqlRow → Nat → List String → List ValidationError × List String
  | [], _, seen => ([], seen)
  | row :: rest, idx, seen =>
    let step := validateRow row (idx + rowOffset) seen
    let tail := validateList rowOffset rest (idx + 1) step.2
    (step.1 ++ tail.1, tail.2)

/-- `validateOfficeData(data, rowOffset)`. -/
def validateOfficeData (data : List SqlRow) (rowOffset : Nat) : List ValidationError :=
  (validateList rowOffset data 0 []).1

/-- The final contents of the validator's `seenCodes` set. -/
def validateSeen (data : List SqlRow) : List String := (validateList 2 data 0 []).2

/-- Criticality classification of `importOffices`:
`e.message.includes("required") || e.message.includes("Duplicate")`. -/
def isCritical (e : ValidationError) : Bool :=
  strIncludes e.message "required" || strIncludes e.message "Duplicate"

/-- `offices.map(o => o.OfficeCode).filter(Boolean)`: the truthy codes
currently present in the batch. -/
def truthyCodes (offs : List SqlRow) : List String :=
  offs.filterMap (fun r => match officeCode r with
    | .str s => if s = "" then none else some s
    | .null => none)

/-- The collision-probing `while` loop: try `base8 + pad2 counter`,
incrementing the counter while the candidate is taken. The loop always
terminates; `fuel` bounds the iterations, and `findFreeCode` supplies
enough fuel for the exit condition to be reached (`probeAux_not_mem`). -/
def probeAux (base8 : String) (existing : List String) : Nat → Nat → String
  | 0, counter => base8 ++ pad2 counter
  | fuel + 1, counter =>
    let cand := base8 ++ pad2 counter
    if cand ∈ existing then probeAux base8 existing fuel (counter + 1) else cand

/-- Code assignment for one record: keep the base candidate unless it
collides, otherwise probe `baseCode.substring(0, 8)` plus a two-digit
zero-padded counter starting at 1. -/
def findFreeCode (base : String) (existing : List String) : String :=
  if base ∈ existing then probeAux (strTake base 8) existing (existing.length + 1) 1
  else base

/-- `generatedCodes[key] = value` on a JavaScript object. -/
def setAssoc : List (String × String) → String → String → List (String × String)
  | [], k, v => [(k, v)]
  | (k0, v0) :: rest, k, v =>
    if k0 = k then (k0, v) :: rest else (k0, v0) :: setAssoc rest k v

/-- One iteration of the reconciliation loop at index `i`: records with a
truthy code are untouched; a record with a missing (falsy) code receives
`findFreeCode` of its description-derived base against all codes currently
in the (mutated-in-place) batch. -/
def reconcileStep (offs : List SqlRow) (gen : List (String × String)) (i : Nat) :
    List SqlRow × List (String × String) :=
  match offs.get? i with
  | none => (offs, gen)
  | some off =>
    if truthy (officeCode off) then (offs, gen)
    else
      let base := baseCodeOf (cellStr (officeDesc off))
      let code := findFreeCode base (truthyCodes offs)
      (offs.set i (setVal off "OfficeCode" (.str code)),
       setAssoc gen (cellStr (officeDesc off)) code)

/-- The `for (const office of offices)` reconciliation loop, by index. -/
def reconcileGo : Nat → Nat → List SqlRow → List (String × String) →
    List SqlRow × List (String × String)
  | 0, _, offs, gen => (offs, gen)
  | rem + 1, i, offs, gen =>
    let st := reconcileStep offs gen i
    reconcileGo rem (i + 1) st.1 st.2

/-- Identifier reconciliation over the whole batch: the updated records and
the `generatedCodes` map. -/
def reconcileOffices (offs : List SqlRow) : List SqlRow × List (String × String) :=
  reconcileGo offs.length 0 offs []

/-- The per-row persistence loop: the k-th record's insert outcome is
`store k`; a success increments `recordsImported`, a failure appends a
`"database"` error carrying the record's code and the fault's message,
and iteration always continues. Returns the count and the appended errors. -/
def persistAux (store : Nat → Option String) : List SqlRow → Nat → Nat × List ValidationError
  | [], _ => (0, [])
  | off :: rest, i =>
    let tail := persistAux store rest (i + 1)
    match store i with
    | none => (tail.1 + 1, tail.2)
    | some msg =>
      (tail.1, ⟨i + 2, "database", officeCode off, "Database error: " ++ msg⟩ :: tail.2)

/-- The `ImportResult` returned by `importOffices`. -/
structure ImportResult where
  success : Bool
  recordsImported : Nat
  errors : List ValidationError
  message : String
  generatedCodes : Option (List (String × String))
deriving DecidableEq

/-- One run of the import operation: the outcome (`Except.error` when an
exception escapes the method) and the records attempted for persistence,
in order. -/
structure ImportRun where
  outcome : Except String ImportResult
  attempted : List SqlRow

/-- The body of `importOffices` from validation onward, on the mapped and
description-filtered `offices` list. -/
def runPipeline (offices : List SqlRow) (store : Nat → Option String) : ImportRun :=
  let validationErrors := validateOfficeData offices 2
  let criticalErrors := validationErrors.filter isCritical
  if 0 < validationErrors.length ∧ 0 < criticalErrors.length then
    ⟨.ok ⟨false, 0, validationErrors,
      "Validation failed with " ++ toString criticalErrors.length ++ " critical error(s)",
      none⟩, []⟩
  else
    let rc := reconcileOffices offices
    let pr := persistAux store rc.1 0
    ⟨.ok ⟨decide (0 < pr.1), pr.1, validationErrors ++ pr.2,
      "Successfully imported " ++ toString pr.1 ++ " of " ++ toString rc.1.length
        ++ " office(s)",
      if 0 < rc.2.length then some rc.2 else none⟩, rc.1⟩

/-- `importOffices`: `await this.connect()` (outside the try block — a
connection fault escapes), then inside the try: read the file, map the
columns, filter out rows without a description, validate, abort on critical
errors, reconcile codes, persist row by row, aggregate. A fault from the
file read is caught and turned into a single general error. -/
def importOffices (connectFault : Option String)
    (readResult : Except String (List SqlRow)) (store : Nat → Option String) : ImportRun :=
  match connectFault with
  | some msg => ⟨.error msg, []⟩
  | none =>
    match readResult with
    | .error msg =>
      ⟨.ok ⟨false, 0, [⟨0, "general", .str "", msg⟩],
        "Failed to import offices: " ++ msg, none⟩, []⟩
    | .ok rawData =>
      let offices := (rawData.map (fun r => mapExcelToSQL r columnMap)).filter
        (fun r => truthy (officeDesc r))
      runPipeline offices store

/-- Modelled from the spec (refinement comparison only): the base-candidate
derivation as the spec words it — uppercase the description, strip every
character that is not an ASCII letter or digit, then truncate to the first
10 characters. -/
def specBaseCandidate (desc : String) : String := strTake (stripNonCode (strUpper desc)) 10

/-- `s.toLowerCase()` (ASCII-level model), for the spec-worded normalizer. -/
def strLower (s : String) : String := String.mk (s.data.map Char.toLower)

/-- Modelled from the spec (refinement comparison only): sentinel-null
conversion as the claim words it — any value equal to the literal "null"
compared case-insensitively becomes an explicit null. -/
def specNormalizeCell (v : CellValue) : CellValue :=
  match v with
  | .str s => if strLower s = "null" then .null else .str s
  | .null => .null

/-! ### Helper lemmas -/

theorem normalizeCell_idem (v : CellValue) : normalizeCell (normalizeCell v) = normalizeCell v := by
  by_cases h : v = .str "NULL" ∨ v = .str "null"
  · simp [normalizeCell, h]
  · simp [normalizeCell, h]

theorem mapExcelToSQL_idem (r : SqlRow) :
    mapExcelToSQL (mapExcelToSQL r columnMap) columnMap = mapExcelToSQL r columnMap := by
  simp [mapExcelToSQL, columnMap, getVal, normalizeCell_idem]

theorem map_filter_comm (raw : List SqlRow) :
    ((raw.filter fun r => truthy (officeDesc (mapExcelToSQL r columnMap))).map
        (fun r => mapExcelToSQL r columnMap)).filter (fun r => truthy (officeDesc r))
      = (raw.map fun r => mapExcelToSQL r columnMap).filter (fun r => truthy (officeDesc r)) := by
  induction raw with
  | nil => rfl
  | cons r rest ih =>
    by_cases h : truthy (officeDesc (mapExcelToSQL r columnMap)) <;>
      simp [List.filter_cons, h, ih]

theorem probeAux_form (base8 : String) (existing : List String) :
    ∀ fuel counter, ∃ c, counter ≤ c ∧
      probeAux base8 existing fuel counter = base8 ++ pad2 c := by
  intro fuel
  induction fuel with
  | zero => exact fun counter => ⟨counter, le_rfl, rfl⟩
  | succ n ih =>
    intro counter
    by_cases h : (base8 ++ pad2 counter) ∈ existing
    · have hstep : probeAux base8 existing (n + 1) counter
          = probeAux base8 existing n (counter + 1) := by
        simp [probeAux, h]
      obtain ⟨c, hc, he⟩ := ih (counter + 1)
      exact ⟨c, by omega, by rw [hstep]; exact he⟩
    · exact ⟨counter, le_rfl, by simp [probeAux, h]⟩

/-! ### Claim C1 — missing officeCode is classified critical and aborts the run -/

/-- Claim C1 (code bug, failing evaluation): for a one-record batch with a
description and no officeCode, the import aborts: the missing-code finding's
message contains "required", so the criticality filter classifies it
critical, `recordsImported = 0`, no code is generated, and no record reaches
persistence — contradicting the advisory-only, auto-generate behaviour the
claim (and the error message itself) describes. -/
theorem claim_C1_failing_eval :
    (importOffices none (.ok [[("OfficeDesc", CellValue.str "Cape Town")]])
        (fun _ => none)).outcome
      = .ok ⟨false, 0,
          [⟨2, "OfficeCode", .null,
            "Office Code is required and will be auto-generated if missing"⟩],
          "Validation failed with 1 critical error(s)", none⟩ ∧
    (importOffices none (.ok [[("OfficeDesc", CellValue.str "Cape Town")]])
        (fun _ => none)).attempted = [] ∧
    isCritical ⟨2, "OfficeCode", .null,
      "Office Code is required and will be auto-generated if missing"⟩ = true :=
  ⟨rfl, rfl, by decide⟩

/-! ### Claim C2 — records without a description are dropped, not critical errors -/

/-- Claim C2 (counterexample): a 3-row batch whose second row has no
description does not abort and records no error for that row: the row is
silently filtered out before validation, and the remaining two records
are persisted (`recordsImported = 2`, empty error list) — the claim asserts a
critical "required" error and a full abort with 0 imported. -/
theorem claim_C2_counterexample :
    (importOffices none
        (.ok [[("OfficeCode", CellValue.str "A"), ("OfficeDesc", CellValue.str "One")],
              [("OfficeCode", CellValue.str "B")],
              [("OfficeCode", CellValue.str "C"), ("OfficeDesc", CellValue.str "Three")]])
        (fun _ => none)).outcome
      = .ok ⟨true, 2, [], "Successfully imported 2 of 2 office(s)", none⟩ := rfl

/-- Claim C2 (amended): records whose officeDesc is missing or empty are
excluded from the batch before validation; no error is recorded for them and
they cause no abort — the entire result is identical to running the
operation on the batch with those records removed. -/
theorem claim_C2_amended (connectFault : Option String) (raw : List SqlRow)
    (store : Nat → Option String) :
    importOffices connectFault (.ok raw) store =
      importOffices connectFault
        (.ok (raw.filter fun r => truthy (officeDesc (mapExcelToSQL r columnMap)))) store := by
  cases connectFault with
  | some msg => rfl
  | none => simp only [importOffices, map_filter_comm]

/-! ### Claim C5 — base candidate derivation order -/

/-- Claim C5 (counterexample): in the spec's two-row scenario the
auto-generated code for description "Cape Town Branch!!" is "CAPETOWN", not
"CAPETOWNB": the source truncates to 10 characters first and only then
uppercases and strips non-alphanumerics (by the spec's own stated order the
value would be "CAPETOWNBR" — also not "CAPETOWNB"). -/
theorem claim_C5_counterexample :
    (reconcileOffices
        [mapExcelToSQL [("OfficeCode", CellValue.str "HQ"),
            ("OfficeDesc", CellValue.str "Head Office")] columnMap,
         mapExcelToSQL [("OfficeDesc", CellValue.str "Cape Town Branch!!")] columnMap]).2
      = [("Cape Town Branch!!", "CAPETOWN")] ∧
    ("CAPETOWN" : String) ≠ "CAPETOWNB" ∧
    specBaseCandidate "Cape Town Branch!!" = "CAPETOWNBR" := by decide

/-- Claim C5 (amended): the base candidate takes the first 10 characters of
the description and then uppercases and strips every character that is not
an ASCII letter or digit; for a record with no code and description
"Cape Town Branch!!" in a batch with explicit code "HQ" and no collision,
the generated code is "CAPETOWN" and is recorded in the generated-codes map. -/
theorem claim_C5_amended :
    baseCodeOf "Cape Town Branch!!" = "CAPETOWN" ∧
    (reconcileOffices
        [mapExcelToSQL [("OfficeCode", CellValue.str "HQ"),
            ("OfficeDesc", CellValue.str "Head Office")] columnMap,
         mapExcelToSQL [("OfficeDesc", CellValue.str "Cape Town Branch!!")] columnMap]).1.map
        officeCode = [.str "HQ", .str "CAPETOWN"] ∧
    (reconcileOffices
        [mapExcelToSQL [("OfficeCode", CellValue.str "HQ"),
            ("OfficeDesc", CellValue.str "Head Office")] columnMap,
         mapExcelToSQL [("OfficeDesc", CellValue.str "Cape Town Branch!!")] columnMap]).2
      = [("Cape Town Branch!!", "CAPETOWN")] := by decide

/-! ### Claim C6 — collision probing -/

/-- Claim C6 (counterexample): for base candidate "ACMECORP" colliding with
an existing "ACMECORP", the first reconciled candidate is not "ACMECOR01":
`"ACMECORP".substring(0, 8)` is the whole 8-character string, so the
candidate is "ACMECORP01". -/
theorem claim_C6_counterexample :
    findFreeCode "ACMECORP" ["ACMECORP"] ≠ "ACMECOR01" := by decide

/-- Claim C6 (amended): when the base candidate collides, probing forms
candidates from the first 8 characters of the base candidate followed by a
two-digit zero-padded counter starting at 1, incrementing until a free
candidate is found; for base "ACMECORP" colliding with existing "ACMECORP",
the first reconciled candidate is "ACMECORP01". -/
theorem claim_C6_amended :
    findFreeCode "ACMECORP" ["ACMECORP"] = "ACMECORP01" ∧
    ∀ base existing, base ∈ existing →
      ∃ c, 1 ≤ c ∧ findFreeCode base existing = strTake base 8 ++ pad2 c := by
  refine ⟨by decide, fun base existing h => ?_⟩
  unfold findFreeCode
  simp only [h, if_pos]
  exact probeAux_form (strTake base 8) existing (existing.length + 1) 1

/-- Witness for claim C6's amended theorem at a concrete collision. -/
theorem claim_C6_witness :
    ("ACMECORP" ∈ ["ACMECORP"]) ∧
    ∃ c, 1 ≤ c ∧ findFreeCode "ACMECORP" ["ACMECORP"] = strTake "ACMECORP" 8 ++ pad2 c :=
  ⟨by decide, claim_C6_amended.2 "ACMECORP" ["ACMECORP"] (by decide)⟩

/-! ### Claim C8 — outer fault boundary -/

/-- Claim C8 (counterexample): a connection-establishment fault is raised
before the try block and escapes `importOffices` — the outcome is the
exception itself, not an `ImportResult` with a "general" error. -/
theorem claim_C8_counterexample :
    (importOffices (some "connection failed") (.ok []) (fun _ => none)).outcome
        = .error "connection failed" ∧
    (importOffices (some "connection failed") (.ok []) (fun _ => none)).outcome
        ≠ .ok ⟨false, 0, [⟨0, "general", .str "", "connection failed"⟩],
            "Failed to import offices: connection failed", none⟩ :=
  ⟨rfl, fun h => Except.noConfusion h⟩

/-- Claim C8 (amended): a fault raised while reading the spreadsheet file is
caught at the boundary and converted into a single `ImportResult` with
`success = false`, zero imports and exactly one error under field "general"
carrying the fault's message; a connection-establishment fault, by contrast,
escapes the operation uncaught. -/
theorem claim_C8_amended :
    (∀ msg store, importOffices none (.error msg) store =
      ⟨.ok ⟨false, 0, [⟨0, "general", .str "", msg⟩],
        "Failed to import offices: " ++ msg, none⟩, []⟩) ∧
    (∀ msg readResult store, importOffices (some msg) readResult store = ⟨.error msg, []⟩) :=
  ⟨fun _ _ => rfl, fun _ _ _ => rfl⟩

/-! ### Claim C9 — sentinel-null normalization -/

/-- Claim C9 (counterexample): normalization is not case-insensitive — the
raw value "Null" passes through unchanged instead of becoming an explicit
null (the spec-worded case-insensitive normalizer would convert it). -/
theorem claim_C9_counterexample :
    getVal (mapExcelToSQL [("OfficeCode", CellValue.str "Null")] columnMap) "OfficeCode"
        = .str "Null" ∧
    CellValue.str "Null" ≠ CellValue.null ∧
    specNormalizeCell (.str "Null") = .null := by decide

/-- Claim C9 (amended): normalization converts exactly the two literal
strings "NULL" and "null" to explicit null, passes every other value through
unchanged (including already-null cells), and is idempotent on rows mapped
through the fixed column map. -/
theorem claim_C9_amended :
    (normalizeCell (.str "NULL") = .null ∧ normalizeCell (.str "null") = .null ∧
      normalizeCell .null = .null) ∧
    (∀ v, v ≠ .str "NULL" → v ≠ .str "null" → normalizeCell v = v) ∧
    (∀ r, mapExcelToSQL (mapExcelToSQL r columnMap) columnMap = mapExcelToSQL r columnMap) := by
  refine ⟨⟨by decide, by decide, by decide⟩, fun v h1 h2 => ?_, mapExcelToSQL_idem⟩
  simp [normalizeCell, h1, h2]

/-- Witness for claim C9's amended theorem at a concrete non-sentinel value. -/
theorem claim_C9_witness :
    (CellValue.str "Cape" ≠ .str "NULL") ∧ (CellValue.str "Cape" ≠ .str "null") ∧
    normalizeCell (.str "Cape") = .str "Cape" :=
  ⟨by decide, by decide, claim_C9_amended.2.1 (.str "Cape") (by decide) (by decide)⟩

/-! ### Validator fold lemmas -/

theorem mem_ite_singleton {c : Prop} [Decidable c] {e x : ValidationError}
    (h : e ∈ (if c then [x] else [])) : e = x := by
  split at h
  · simpa using h
  · simp at h

theorem mem_ite_nil_singleton {c : Prop} [Decidable c] {e x : ValidationError}
    (h : e ∈ (if c then [] else [x])) : e = x := by
  split at h
  · simp at h
  · simpa using h

theorem validateRow_row_eq (r : SqlRow) (n : Nat) (seen : List String) :
    ∀ e ∈ (validateRow r n seen).1, e.row = n := by
  intro e he
  unfold validateRow at he
  by_cases hs : isHeaderSentinel (officeCode r)
  · simp [hs] at he
  · simp only [hs, Bool.false_eq_true, if_false, List.mem_append] at he
    rcases he with ((((h | h) | h) | h) | h) <;>
      first
        | rw [mem_ite_singleton h]
        | rw [mem_ite_nil_singleton h]

theorem validateRow_sentinel (r : SqlRow) (n : Nat) (seen : List String)
    (hs : isHeaderSentinel (officeCode r) = true) :
    validateRow r n seen = ([], seen) := by
  simp [validateRow, hs]

theorem validateRow_seen_subset (r : SqlRow) (n : Nat) (seen : List String) :
    seen ⊆ (validateRow r n seen).2 := by
  unfold validateRow
  by_cases hs : isHeaderSentinel (officeCode r)
  · simp [hs]
  · simp only [hs, Bool.false_eq_true, if_false]
    by_cases ht : truthy (officeCode r)
    · simp only [ht, if_true]
      exact fun x hx => List.mem_cons_of_mem _ hx
    · simp [ht]

theorem validateRow_seen_mem (r : SqlRow) (n : Nat) (seen : List String)
    (hs : isHeaderSentinel (officeCode r) = false)
    (ht : truthy (officeCode r) = true) :
    cellStr (officeCode r) ∈ (validateRow r n seen).2 := by
  simp [validateRow, hs, ht]

theorem validateRow_seen_src (r : SqlRow) (n : Nat) (seen : List String) :
    ∀ x ∈ (validateRow r n seen).2, x ∈ seen ∨
      (isHeaderSentinel (officeCode r) = false ∧ truthy (officeCode r) = true ∧
        cellStr (officeCode r) = x) := by
  intro x hx
  unfold validateRow at hx
  by_cases hs : isHeaderSentinel (officeCode r)
  · simp only [hs, if_true] at hx
    exact Or.inl hx
  · simp only [hs, Bool.false_eq_true, if_false] at hx
    by_cases ht : truthy (officeCode r)
    · simp only [ht, if_true, List.mem_cons] at hx
      rcases hx with h | h
      · exact Or.inr ⟨by simpa using hs, ht, h.symm⟩
      · exact Or.inl h
    · simp only [ht, Bool.false_eq_true, if_false] at hx
      exact Or.inl hx

theorem mem_validateList (off : Nat) :
    ∀ (l : List SqlRow) (i0 : Nat) (seen : List String) (e : ValidationError),
      e ∈ (validateList off l i0 seen).1 →
      ∃ k r s', l.get? k = some r ∧ e ∈ (validateRow r (i0 + k + off) s').1 := by
  intro l
  induction l with
  | nil => intro i0 seen e he; simp [validateList] at he
  | cons r rest ih =>
    intro i0 seen e he
    simp only [validateList, List.mem_append] at he
    rcases he with h | h
    · exact ⟨0, r, seen, rfl, h⟩
    · obtain ⟨k, r', s', hk, he'⟩ := ih (i0 + 1) (validateRow r (i0 + off) seen).2 e h
      refine ⟨k + 1, r', s', hk, ?_⟩
      have harith : i0 + 1 + k + off = i0 + (k + 1) + off := by omega
      rwa [harith] at he'

theorem validateList_seen_subset (off : Nat) :
    ∀ (l : List SqlRow) (i0 : Nat) (seen : List String),
      seen ⊆ (validateList off l i0 seen).2 := by
  intro l
  induction l with
  | nil => intro i0 seen; simp [validateList]
  | cons r rest ih =>
    intro i0 seen
    exact fun x hx =>
      ih (i0 + 1) (validateRow r (i0 + off) seen).2
        (validateRow_seen_subset r (i0 + off) seen hx)

theorem validateList_seen_src (off : Nat) :
    ∀ (l : List SqlRow) (i0 : Nat) (seen : List String),
      ∀ x ∈ (validateList off l i0 seen).2, x ∈ seen ∨
        ∃ k r, l.get? k = some r ∧ isHeaderSentinel (officeCode r) = false ∧
          truthy (officeCode r) = true ∧ cellStr (officeCode r) = x := by
  intro l
  induction l with
  | nil => intro i0 seen x hx; exact Or.inl (by simpa [validateList] using hx)
  | cons r rest ih =>
    intro i0 seen x hx
    rcases ih (i0 + 1) (validateRow r (i0 + off) seen).2 x hx with h | ⟨k, r', hk, h1, h2, h3⟩
    · rcases validateRow_seen_src r (i0 + off) seen x h with h' | ⟨h1, h2, h3⟩
      · exact Or.inl h'
      · exact Or.inr ⟨0, r, rfl, h1, h2, h3⟩
    · exact Or.inr ⟨k + 1, r', hk, h1, h2, h3⟩

/-! ### Substring lemmas for the criticality classifier -/

theorem startsWithL_nil_pat (l : List Char) : startsWithL l [] = true := by
  cases l <;> rfl

theorem startsWithL_append (a b : List Char) : startsWithL (a ++ b) a = true := by
  induction a with
  | nil => exact startsWithL_nil_pat b
  | cons c a' ih => simp [startsWithL, ih]

theorem hasSubstr_nil_pat (l : List Char) : hasSubstr l [] = true := by
  cases l <;> rfl

theorem hasSubstr_of_startsWith (l pat : List Char) (h : startsWithL l pat = true) :
    hasSubstr l pat = true := by
  cases l with
  | nil =>
    cases pat with
    | nil => rfl
    | cons d p => simp [startsWithL] at h
  | cons c rest => simp [hasSubstr, h]

theorem strIncludes_dup (s : String) :
    strIncludes ("Duplicate Office Code: " ++ s) "Duplicate" = true := by
  unfold strIncludes
  rw [String.data_append]
  have hsplit : ("Duplicate Office Code: " : String).data
      = ("Duplicate" : String).data ++ (" Office Code: " : String).data := rfl
  rw [hsplit, List.append_assoc]
  exact hasSubstr_of_startsWith _ _ (startsWithL_append _ _)

theorem isCritical_dup (n : Nat) (f : String) (v : CellValue) (s : String) :
    isCritical ⟨n, f, v, "Duplicate Office Code: " ++ s⟩ = true := by
  unfold isCritical
  rw [strIncludes_dup]
  simp

/-! ### Duplicate-error production -/

theorem dup_mem_validateList (off : Nat) :
    ∀ (l : List SqlRow) (i0 : Nat) (seen : List String) (k : Nat) (r : SqlRow) (s : String),
      l.get? k = some r → officeCode r = .str s → s ≠ "" →
      isHeaderSentinel (.str s) = false → s ∈ seen →
      (⟨i0 + k + off, "OfficeCode", .str s, "Duplicate Office Code: " ++ s⟩ : ValidationError)
        ∈ (validateList off l i0 seen).1 := by
  intro l
  induction l with
  | nil => intro i0 seen k r s hk; simp [List.get?] at hk
  | cons r0 rest ih =>
    intro i0 seen k r s hk hcode hs hsent hseen
    simp only [validateList, List.mem_append]
    cases k with
    | zero =>
      left
      have hr : r0 = r := by simpa using hk
      subst hr
      have ht : truthy (officeCode r0) = true := by
        rw [hcode]; simp [truthy, hs]
      have hcs : cellStr (officeCode r0) = s := by rw [hcode]; rfl
      have hsent' : isHeaderSentinel (officeCode r0) = false := by rw [hcode]; exact hsent
      unfold validateRow
      simp only [hsent', Bool.false_eq_true, if_false, List.mem_append]
      left; left; right
      have hcond : truthy (officeCode r0) = true ∧ cellStr (officeCode r0) ∈ seen := by
        exact ⟨ht, by rwa [hcs]⟩
      rw [if_pos hcond, hcs, hcode]
      simp
    | succ k' =>
      right
      have hseen' : s ∈ (validateRow r0 (i0 + off) seen).2 :=
        validateRow_seen_subset r0 (i0 + off) seen hseen
      have := ih (i0 + 1) (validateRow r0 (i0 + off) seen).2 k' r s
        (by simpa using hk) hcode hs hsent hseen'
      have harith : i0 + 1 + k' + off = i0 + (k' + 1) + off := by omega
      rwa [harith] at this

theorem dup_pair_mem (off : Nat) :
    ∀ (l : List SqlRow) (i0 : Nat) (seen : List String) (k1 k2 : Nat)
      (r1 r2 : SqlRow) (s : String),
      k1 < k2 → l.get? k1 = some r1 → l.get? k2 = some r2 →
      officeCode r1 = .str s → officeCode r2 = .str s → s ≠ "" →
      isHeaderSentinel (.str s) = false →
      (⟨i0 + k2 + off, "OfficeCode", .str s, "Duplicate Office Code: " ++ s⟩ : ValidationError)
        ∈ (validateList off l i0 seen).1 := by
  intro l
  induction l with
  | nil => intro i0 seen k1 k2 r1 r2 s _ hk1; simp [List.get?] at hk1
  | cons r0 rest ih =>
    intro i0 seen k1 k2 r1 r2 s h12 hk1 hk2 hc1 hc2 hs hsent
    simp only [validateList, List.mem_append]
    cases k1 with
    | zero =>
      right
      have hr : r0 = r1 := by simpa using hk1
      subst hr
      obtain ⟨k2', rfl⟩ : ∃ k2', k2 = k2' + 1 := ⟨k2 - 1, by omega⟩
      have hsent0 : isHeaderSentinel (officeCode r0) = false := by rw [hc1]; exact hsent
      have ht0 : truthy (officeCode r0) = true := by rw [hc1]; simp [truthy, hs]
      have hseen' : s ∈ (validateRow r0 (i0 + off) seen).2 := by
        have := validateRow_seen_mem r0 (i0 + off) seen hsent0 ht0
        rwa [hc1] at this
      have := dup_mem_validateList off rest (i0 + 1) (validateRow r0 (i0 + off) seen).2
        k2' r2 s (by simpa using hk2) hc2 hs hsent hseen'
      have harith : i0 + 1 + k2' + off = i0 + (k2' + 1) + off := by omega
      rwa [harith] at this
    | succ k1' =>
      right
      obtain ⟨k2', rfl⟩ : ∃ k2', k2 = k2' + 1 := ⟨k2 - 1, by omega⟩
      have := ih (i0 + 1) (validateRow r0 (i0 + off) seen).2 k1' k2' r1 r2 s
        (by omega) (by simpa using hk1) (by simpa using hk2) hc1 hc2 hs hsent
      have harith : i0 + 1 + k2' + off = i0 + (k2' + 1) + off := by omega
      rwa [harith] at this

/-! ### Pipeline branch lemmas -/

theorem runPipeline_abort (offices : List SqlRow) (store : Nat → Option String)
    (h : 0 < ((validateOfficeData offices 2).filter isCritical).length) :
    runPipeline offices store =
      ⟨.ok ⟨false, 0, validateOfficeData offices 2,
        "Validation failed with "
          ++ toString ((validateOfficeData offices 2).filter isCritical).length
          ++ " critical error(s)", none⟩, []⟩ := by
  have hv : 0 < (validateOfficeData offices 2).length := by
    have := List.length_filter_le isCritical (validateOfficeData offices 2)
    omega
  unfold runPipeline
  rw [if_pos ⟨hv, h⟩]

theorem runPipeline_proceed (offices : List SqlRow) (store : Nat → Option String)
    (h : (validateOfficeData offices 2).filter isCritical = []) :
    runPipeline offices store =
      ⟨.ok ⟨decide (0 < (persistAux store (reconcileOffices offices).1 0).1),
        (persistAux store (reconcileOffices offices).1 0).1,
        validateOfficeData offices 2 ++ (persistAux store (reconcileOffices offices).1 0).2,
        "Successfully imported " ++ toString (persistAux store (reconcileOffices offices).1 0).1
          ++ " of " ++ toString (reconcileOffices offices).1.length ++ " office(s)",
        if 0 < (reconcileOffices offices).2.length then some (reconcileOffices offices).2
        else none⟩,
      (reconcileOffices offices).1⟩ := by
  unfold runPipeline
  rw [if_neg]
  intro hc
  rw [h] at hc
  exact absurd hc.2 (by simp)

theorem runPipeline_success_iff (offices : List SqlRow) (store : Nat → Option String)
    (res : ImportResult) (h : (runPipeline offices store).outcome = .ok res) :
    res.success = true ↔ 0 < res.recordsImported := by
  by_cases hc : (validateOfficeData offices 2).filter isCritical = []
  · rw [runPipeline_proceed offices store hc] at h
    have hres := (Except.ok.inj h).symm
    rw [hres]
    simp
  · have hlen : 0 < ((validateOfficeData offices 2).filter isCritical).length :=
      List.length_pos.mpr hc
    rw [runPipeline_abort offices store hlen] at h
    have hres := (Except.ok.inj h).symm
    rw [hres]
    simp

theorem importOffices_success_iff (connectFault : Option String)
    (readResult : Except String (List SqlRow)) (store : Nat → Option String)
    (res : ImportResult) (h : (importOffices connectFault readResult store).outcome = .ok res) :
    res.success = true ↔ 0 < res.recordsImported := by
  cases connectFault with
  | some m => exact absurd h (by simp [importOffices])
  | none =>
    cases readResult with
    | error m =>
      have hres : res = ⟨false, 0, [⟨0, "general", .str "", m⟩],
          "Failed to import offices: " ++ m, none⟩ := (Except.ok.inj h).symm
      rw [hres]
      simp
    | ok raw =>
      exact runPipeline_success_iff
        ((raw.map fun r => mapExcelToSQL r columnMap).filter fun r => truthy (officeDesc r))
        store res h

/-! ### Claim C4 — duplicate codes abort the run -/

/-- Claim C4 (confirmed): for every batch in which the same nonempty,
non-sentinel officeCode appears on two records (all records carrying a
description, as the pipeline's filter guarantees), the import aborts before
any persistence: the outcome carries `success = false`, `recordsImported = 0`
and the full validation error list, no record is attempted, and that list
contains the critical duplicate error recorded at the later occurrence. -/
theorem claim_C4_theorem (raw : List SqlRow) (store : Nat → Option String)
    (offices : List SqlRow) (i j : Nat) (ri rj : SqlRow) (s : String)
    (hoff : offices = (raw.map fun r => mapExcelToSQL r columnMap).filter
        (fun r => truthy (officeDesc r)))
    (hij : i < j)
    (hi : offices.get? i = some ri) (hj : offices.get? j = some rj)
    (hci : officeCode ri = .str s) (hcj : officeCode rj = .str s)
    (hs : s ≠ "") (hsent : isHeaderSentinel (.str s) = false) :
    (importOffices none (.ok raw) store).outcome
        = .ok ⟨false, 0, validateOfficeData offices 2,
            "Validation failed with "
              ++ toString ((validateOfficeData offices 2).filter isCritical).length
              ++ " critical error(s)", none⟩ ∧
    (importOffices none (.ok raw) store).attempted = [] ∧
    (⟨j + 2, "OfficeCode", .str s, "Duplicate Office Code: " ++ s⟩ : ValidationError)
        ∈ validateOfficeData offices 2 ∧
    isCritical ⟨j + 2, "OfficeCode", .str s, "Duplicate Office Code: " ++ s⟩ = true := by
  subst hoff
  have hdup := dup_pair_mem 2
    ((raw.map fun r => mapExcelToSQL r columnMap).filter fun r => truthy (officeDesc r))
    0 [] i j ri rj s hij hi hj hci hcj hs hsent
  rw [Nat.zero_add] at hdup
  have hcritmem : (⟨j + 2, "OfficeCode", .str s, "Duplicate Office Code: " ++ s⟩ :
      ValidationError) ∈ (validateOfficeData
        ((raw.map fun r => mapExcelToSQL r columnMap).filter fun r => truthy (officeDesc r))
        2).filter isCritical :=
    List.mem_filter.mpr ⟨hdup, isCritical_dup _ _ _ _⟩
  have hlen : 0 < ((validateOfficeData
      ((raw.map fun r => mapExcelToSQL r columnMap).filter fun r => truthy (officeDesc r))
      2).filter isCritical).length :=
    List.length_pos.mpr (List.ne_nil_of_mem hcritmem)
  have hrun := runPipeline_abort
    ((raw.map fun r => mapExcelToSQL r columnMap).filter fun r => truthy (officeDesc r))
    store hlen
  refine ⟨?_, ?_, hdup, isCritical_dup _ _ _ _⟩
  · show (runPipeline
      ((raw.map fun r => mapExcelToSQL r columnMap).filter fun r => truthy (officeDesc r))
      store).outcome = _
    rw [hrun]
  · show (runPipeline
      ((raw.map fun r => mapExcelToSQL r columnMap).filter fun r => truthy (officeDesc r))
      store).attempted = []
    rw [hrun]

/-- Witness for claim C4's theorem on a concrete two-row batch with a
duplicated code "X". -/
theorem claim_C4_witness :
    (importOffices none
        (.ok [[("OfficeCode", CellValue.str "X"), ("OfficeDesc", CellValue.str "One")],
              [("OfficeCode", CellValue.str "X"), ("OfficeDesc", CellValue.str "Two")]])
        (fun _ => none)).attempted = [] ∧
    (⟨3, "OfficeCode", .str "X", "Duplicate Office Code: " ++ "X"⟩ : ValidationError)
      ∈ validateOfficeData
          (([[("OfficeCode", CellValue.str "X"), ("OfficeDesc", CellValue.str "One")],
             [("OfficeCode", CellValue.str "X"), ("OfficeDesc", CellValue.str "Two")]].map
              (fun r => mapExcelToSQL r columnMap)).filter fun r => truthy (officeDesc r)) 2 := by
  have h := claim_C4_theorem
    [[("OfficeCode", CellValue.str "X"), ("OfficeDesc", CellValue.str "One")],
     [("OfficeCode", CellValue.str "X"), ("OfficeDesc", CellValue.str "Two")]]
    (fun _ => none) _ 0 1 _ _ "X" rfl (by decide) rfl rfl (by decide) (by decide)
    (by decide) (by decide)
  exact ⟨h.2.1, h.2.2.1⟩

/-! ### Persistence lemmas -/

theorem persistAux_count (store : Nat → Option String) :
    ∀ (offs : List SqlRow) (i : Nat),
      (persistAux store offs i).1
        = (List.range offs.length).countP (fun k => (store (i + k)).isNone) := by
  intro offs
  induction offs with
  | nil => intro i; rfl
  | cons off rest ih =>
    intro i
    have hrange : List.range (rest.length + 1)
        = 0 :: (List.range rest.length).map (· + 1) := by
      rw [List.range_succ_eq_map]
    have hfun : ((fun k => (store (i + k)).isNone) ∘ (fun k => k + 1))
        = (fun k => (store (i + 1 + k)).isNone) := by
      funext k
      simp only [Function.comp]
      have : i + (k + 1) = i + 1 + k := by omega
      rw [this]
    simp only [List.length_cons, hrange, List.countP_cons, List.countP_map, hfun]
    unfold persistAux
    cases hs : store i with
    | none =>
      have h0 : (store (i + 0)).isNone = true := by
        have : i + 0 = i := by omega
        rw [this, hs]; rfl
      simp only [ih (i + 1), h0]
      simp
    | some msg =>
      have h0 : (store (i + 0)).isNone = false := by
        have : i + 0 = i := by omega
        rw [this, hs]; rfl
      simp only [ih (i + 1), h0]
      simp

theorem persistAux_err_mem (store : Nat → Option String) :
    ∀ (offs : List SqlRow) (i k : Nat) (off : SqlRow) (msg : String),
      offs.get? k = some off → store (i + k) = some msg →
      (⟨i + k + 2, "database", officeCode off, "Database error: " ++ msg⟩ : ValidationError)
        ∈ (persistAux store offs i).2 := by
  intro offs
  induction offs with
  | nil => intro i k off msg hk; simp [List.get?] at hk
  | cons o rest ih =>
    intro i k off msg hk hs
    cases k with
    | zero =>
      have ho : o = off := by simpa using hk
      subst ho
      have hsi : store i = some msg := by simpa using hs
      unfold persistAux
      rw [hsi]
      simp
    | succ k' =>
      have hmem := ih (i + 1) k' off msg (by simpa using hk)
        (by have harg : i + 1 + k' = i + (k' + 1) := by omega
            rw [harg]; exact hs)
      have harith : i + 1 + k' + 2 = i + (k' + 1) + 2 := by omega
      rw [harith] at hmem
      unfold persistAux
      cases hss : store i <;> simp [hmem]

/-! ### Reconciliation bookkeeping lemmas -/

theorem reconcileStep_length (offs : List SqlRow) (gen : List (String × String)) (i : Nat) :
    (reconcileStep offs gen i).1.length = offs.length := by
  unfold reconcileStep
  cases h : offs.get? i with
  | none => rfl
  | some off =>
    by_cases ht : truthy (officeCode off)
    · simp [ht]
    · simp [ht, List.length_set]

theorem reconcileGo_length :
    ∀ (rem i : Nat) (offs : List SqlRow) (gen : List (String × String)),
      (reconcileGo rem i offs gen).1.length = offs.length := by
  intro rem
  induction rem with
  | zero => intro i offs gen; rfl
  | succ n ih =>
    intro i offs gen
    show (reconcileGo n (i + 1) (reconcileStep offs gen i).1 (reconcileStep offs gen i).2).1.length
        = offs.length
    rw [ih, reconcileStep_length]

theorem reconcileStep_preserves (offs : List SqlRow) (gen : List (String × String))
    (i k : Nat) (r : SqlRow) (hk : offs.get? k = some r)
    (ht : truthy (officeCode r) = true) :
    (reconcileStep offs gen i).1.get? k = some r := by
  unfold reconcileStep
  cases h : offs.get? i with
  | none => exact hk
  | some off =>
    by_cases hto : truthy (officeCode off)
    · simp only [hto, if_true]
      exact hk
    · simp only [hto, Bool.false_eq_true, if_false]
      by_cases hik : i = k
      · subst hik
        rw [h] at hk
        injection hk with he
        subst he
        rw [ht] at hto
        exact absurd rfl hto
      · rw [List.get?_set_ne _ _ hik]
        exact hk

theorem reconcileGo_preserves :
    ∀ (rem i : Nat) (offs : List SqlRow) (gen : List (String × String)) (k : Nat) (r : SqlRow),
      offs.get? k = some r → truthy (officeCode r) = true →
      (reconcileGo rem i offs gen).1.get? k = some r := by
  intro rem
  induction rem with
  | zero => intro i offs gen k r hk _; exact hk
  | succ n ih =>
    intro i offs gen k r hk ht
    exact ih (i + 1) (reconcileStep offs gen i).1 (reconcileStep offs gen i).2 k r
      (reconcileStep_preserves offs gen i k r hk ht) ht

/-! ### Claim C3 — per-row persistence isolation -/

/-- Claim C3 (confirmed): when no critical validation error exists, every
reconciled record is attempted as an independent insert; a failing insert at
index k appends a ValidationError with field "database", the record's
officeCode as value and the failure's message (prefixed "Database error: "),
all remaining records are still attempted, `recordsImported` counts exactly
the successful inserts, and every `ImportResult` the operation returns has
`success = true` iff `recordsImported > 0`. -/
theorem claim_C3_theorem (offices : List SqlRow) (store : Nat → Option String)
    (hcrit : (validateOfficeData offices 2).filter isCritical = []) :
    (runPipeline offices store).attempted = (reconcileOffices offices).1 ∧
    (runPipeline offices store).attempted.length = offices.length ∧
    (∃ res, (runPipeline offices store).outcome = .ok res ∧
      res.recordsImported = (List.range offices.length).countP (fun k => (store k).isNone) ∧
      res.errors = validateOfficeData offices 2
          ++ (persistAux store (reconcileOffices offices).1 0).2 ∧
      (∀ k off msg, (reconcileOffices offices).1.get? k = some off → store k = some msg →
        (⟨k + 2, "database", officeCode off, "Database error: " ++ msg⟩ : ValidationError)
          ∈ res.errors) ∧
      (res.success = true ↔ 0 < res.recordsImported)) ∧
    (∀ connectFault readResult st res,
      (importOffices connectFault readResult st).outcome = .ok res →
      (res.success = true ↔ 0 < res.recordsImported)) := by
  have hrun := runPipeline_proceed offices store hcrit
  have hlen : (reconcileOffices offices).1.length = offices.length :=
    reconcileGo_length offices.length 0 offices []
  refine ⟨by rw [hrun], by rw [hrun]; exact hlen, ?_, importOffices_success_iff⟩
  have hcount := persistAux_count store (reconcileOffices offices).1 0
  rw [hlen] at hcount
  have hfun : (fun k => (store (0 + k)).isNone) = fun k => (store k).isNone := by
    funext k; rw [Nat.zero_add]
  rw [hfun] at hcount
  refine ⟨_, by rw [hrun], hcount, rfl, ?_, by simp⟩
  intro k off msg hk hs
  have hmem := persistAux_err_mem store (reconcileOffices offices).1 0 k off msg hk
    (by rw [Nat.zero_add]; exact hs)
  rw [Nat.zero_add] at hmem
  exact List.mem_append_right _ hmem

/-- Witness for claim C3's theorem: a two-record batch whose first insert
fails with "boom" and whose second succeeds. -/
theorem claim_C3_witness :
    ((validateOfficeData
        [[("OfficeCode", CellValue.str "AA"), ("OfficeDesc", CellValue.str "One")],
         [("OfficeCode", CellValue.str "BB"), ("OfficeDesc", CellValue.str "Two")]]
        2).filter isCritical = []) ∧
    (runPipeline
        [[("OfficeCode", CellValue.str "AA"), ("OfficeDesc", CellValue.str "One")],
         [("OfficeCode", CellValue.str "BB"), ("OfficeDesc", CellValue.str "Two")]]
        (fun i => if i = 0 then some "boom" else none)).attempted.length
      = ([[("OfficeCode", CellValue.str "AA"), ("OfficeDesc", CellValue.str "One")],
          [("OfficeCode", CellValue.str "BB"), ("OfficeDesc", CellValue.str "Two")]] :
          List SqlRow).length ∧
    (∃ res, (runPipeline
        [[("OfficeCode", CellValue.str "AA"), ("OfficeDesc", CellValue.str "One")],
         [("OfficeCode", CellValue.str "BB"), ("OfficeDesc", CellValue.str "Two")]]
        (fun i => if i = 0 then some "boom" else none)).outcome = .ok res ∧
      res.recordsImported
          = (List.range ([[("OfficeCode", CellValue.str "AA"),
              ("OfficeDesc", CellValue.str "One")],
             [("OfficeCode", CellValue.str "BB"), ("OfficeDesc", CellValue.str "Two")]] :
              List SqlRow).length).countP
            (fun k => ((fun i => if i = 0 then some "boom" else none) k).isNone) ∧
      res.errors = validateOfficeData
          [[("OfficeCode", CellValue.str "AA"), ("OfficeDesc", CellValue.str "One")],
           [("OfficeCode", CellValue.str "BB"), ("OfficeDesc", CellValue.str "Two")]] 2
          ++ (persistAux (fun i => if i = 0 then some "boom" else none)
              (reconcileOffices
                [[("OfficeCode", CellValue.str "AA"), ("OfficeDesc", CellValue.str "One")],
                 [("OfficeCode", CellValue.str "BB"), ("OfficeDesc", CellValue.str "Two")]]).1
              0).2 ∧
      (∀ k off msg, (reconcileOffices
            [[("OfficeCode", CellValue.str "AA"), ("OfficeDesc", CellValue.str "One")],
             [("OfficeCode", CellValue.str "BB"),
              ("OfficeDesc", CellValue.str "Two")]]).1.get? k = some off →
          (if k = 0 then some "boom" else none) = some msg →
          (⟨k + 2, "database", officeCode off, "Database error: " ++ msg⟩ : ValidationError)
            ∈ res.errors) ∧
      (res.success = true ↔ 0 < res.recordsImported)) := by
  have h := claim_C3_theorem
    [[("OfficeCode", CellValue.str "AA"), ("OfficeDesc", CellValue.str "One")],
     [("OfficeCode", CellValue.str "BB"), ("OfficeDesc", CellValue.str "Two")]]
    (fun i => if i = 0 then some "boom" else none) (by decide)
  exact ⟨by decide, h.2.1, h.2.2.1⟩

/-! ### Claim C10 — header-sentinel records -/

theorem sentinel_truthy {v : CellValue} (h : isHeaderSentinel v = true) : truthy v = true := by
  unfold isHeaderSentinel at h
  rw [decide_eq_true_eq] at h
  rcases h with h | h | h <;> (subst h; rfl)

theorem persistAux_none_errors :
    ∀ (offs : List SqlRow) (i : Nat), (persistAux (fun _ => none) offs i).2 = [] := by
  intro offs
  induction offs with
  | nil => intro i; rfl
  | cons off rest ih =>
    intro i
    unfold persistAux
    simp [ih (i + 1)]

/-- Claim C10 (confirmed): a record whose officeCode equals one of the
sentinel strings "OfficeCode", "Data" or "Context" receives no validation
error of any kind (no error in the list mentions its row), its code is never
added to the duplicate-tracking set, and yet — when no critical error exists
elsewhere — it is still attempted for persistence unchanged and counts
toward `recordsImported` on success. -/
theorem claim_C10_theorem (offices : List SqlRow) (i : Nat) (r : SqlRow)
    (hi : offices.get? i = some r)
    (hsent : isHeaderSentinel (officeCode r) = true) :
    (∀ e ∈ validateOfficeData offices 2, e.row ≠ i + 2) ∧
    (∀ s, officeCode r = .str s → s ∉ validateSeen offices) ∧
    ((validateOfficeData offices 2).filter isCritical = [] →
      (runPipeline offices (fun _ => none)).attempted.get? i = some r ∧
      (∃ res, (runPipeline offices (fun _ => none)).outcome = .ok res ∧
        res.recordsImported = offices.length ∧
        res.errors = validateOfficeData offices 2)) := by
  refine ⟨?_, ?_, ?_⟩
  · intro e he hrow
    obtain ⟨k, r', s', hk, he'⟩ := mem_validateList 2 offices 0 [] e he
    have hrowk := validateRow_row_eq r' (0 + k + 2) s' e he'
    have hki : k = i := by omega
    subst hki
    rw [hi] at hk
    have hrr : r' = r := (Option.some.inj hk).symm
    subst hrr
    rw [validateRow_sentinel r' (0 + k + 2) s' hsent] at he'
    simp at he'
  · intro s hcode hmem
    rcases validateList_seen_src 2 offices 0 [] s hmem with h | ⟨k, r', hk, hsf, htr, hcs⟩
    · simp at h
    · have hoc : officeCode r' = .str s := by
        cases hoc : officeCode r' with
        | null => rw [hoc] at htr; simp [truthy] at htr
        | str t =>
          rw [hoc] at hcs
          simp only [cellStr] at hcs
          rw [hcs]
      rw [hoc] at hsf
      rw [hcode] at hsent
      rw [hsf] at hsent
      exact Bool.noConfusion hsent
  · intro hcrit
    have hrun := runPipeline_proceed offices (fun _ => none) hcrit
    have htr : truthy (officeCode r) = true := sentinel_truthy hsent
    constructor
    · rw [hrun]
      exact reconcileGo_preserves offices.length 0 offices [] i r hi htr
    · refine ⟨_, by rw [hrun], ?_, ?_⟩
      · show (persistAux (fun _ => none) (reconcileOffices offices).1 0).1 = offices.length
        have hcount := persistAux_count (fun _ => none) (reconcileOffices offices).1 0
        have hlen : (reconcileOffices offices).1.length = offices.length :=
          reconcileGo_length offices.length 0 offices []
        rw [hlen] at hcount
        calc (persistAux (fun _ => none) (reconcileOffices offices).1 0).1
            = List.countP (fun _ => (none : Option String).isNone)
                (List.range offices.length) := hcount
          _ = (List.range offices.length).length :=
              List.countP_eq_length.mpr (fun a _ => rfl)
          _ = offices.length := List.length_range offices.length
      · show validateOfficeData offices 2
            ++ (persistAux (fun _ => none) (reconcileOffices offices).1 0).2
            = validateOfficeData offices 2
        rw [persistAux_none_errors, List.append_nil]

/-- Witness for claim C10's theorem: a batch whose first record carries the
sentinel code "Data" and whose second record is ordinary. -/
theorem claim_C10_witness :
    (([[("OfficeCode", CellValue.str "Data"), ("OfficeDesc", CellValue.str "HQ")],
       [("OfficeCode", CellValue.str "X1"), ("OfficeDesc", CellValue.str "Branch")]] :
       List SqlRow).get? 0
      = some [("OfficeCode", CellValue.str "Data"), ("OfficeDesc", CellValue.str "HQ")]) ∧
    isHeaderSentinel (officeCode
      ([("OfficeCode", CellValue.str "Data"), ("OfficeDesc", CellValue.str "HQ")] : SqlRow))
      = true ∧
    ((validateOfficeData
        [[("OfficeCode", CellValue.str "Data"), ("OfficeDesc", CellValue.str "HQ")],
         [("OfficeCode", CellValue.str "X1"), ("OfficeDesc", CellValue.str "Branch")]]
        2).filter isCritical = []) ∧
    ((runPipeline
        [[("OfficeCode", CellValue.str "Data"), ("OfficeDesc", CellValue.str "HQ")],
         [("OfficeCode", CellValue.str "X1"), ("OfficeDesc", CellValue.str "Branch")]]
        (fun _ => none)).attempted.get? 0
      = some [("OfficeCode", CellValue.str "Data"), ("OfficeDesc", CellValue.str "HQ")] ∧
      (∃ res, (runPipeline
          [[("OfficeCode", CellValue.str "Data"), ("OfficeDesc", CellValue.str "HQ")],
           [("OfficeCode", CellValue.str "X1"), ("OfficeDesc", CellValue.str "Branch")]]
          (fun _ => none)).outcome = .ok res ∧
        res.recordsImported
          = ([[("OfficeCode", CellValue.str "Data"), ("OfficeDesc", CellValue.str "HQ")],
              [("OfficeCode", CellValue.str "X1"), ("OfficeDesc", CellValue.str "Branch")]] :
              List SqlRow).length ∧
        res.errors = validateOfficeData
          [[("OfficeCode", CellValue.str "Data"), ("OfficeDesc", CellValue.str "HQ")],
           [("OfficeCode", CellValue.str "X1"), ("OfficeDesc", CellValue.str "Branch")]] 2)) :=
  ⟨rfl, by decide, by decide,
    (claim_C10_theorem
      [[("OfficeCode", CellValue.str "Data"), ("OfficeDesc", CellValue.str "HQ")],
       [("OfficeCode", CellValue.str "X1"), ("OfficeDesc", CellValue.str "Branch")]]
      0 [("OfficeCode", CellValue.str "Data"), ("OfficeDesc", CellValue.str "HQ")]
      rfl (by decide)).2.2 (by decide)⟩

/-! ### Code-generation lemmas for claim C7 -/

set_option maxRecDepth 10000 in
theorem pad2_inj_small : ∀ i < 100, ∀ j < 100, pad2 i = pad2 j → i = j := by decide

set_option maxRecDepth 10000 in
theorem pad2_len_two : ∀ i < 100, (pad2 i).length = 2 := by decide

theorem strAppend_left_cancel {a b c : String} (h : a ++ b = a ++ c) : b = c := by
  have hd := congrArg String.data h
  rw [String.data_append, String.data_append] at hd
  exact String.ext (List.append_cancel_left hd)

theorem strMk_length (l : List Char) : (String.mk l).length = l.length := rfl

theorem strTake_length_le (s : String) (n : Nat) : (strTake s n).length ≤ n := by
  unfold strTake
  rw [strMk_length]
  have := List.length_take n s.data
  omega

theorem baseCodeOf_length_le (desc : String) : (baseCodeOf desc).length ≤ 10 := by
  show (List.filter isCodeChar ((strTake desc 10).data.map Char.toUpper)).length ≤ 10
  have h1 := List.length_filter_le isCodeChar ((strTake desc 10).data.map Char.toUpper)
  have h2 : ((strTake desc 10).data.map Char.toUpper).length
      = (strTake desc 10).data.length := by rw [List.length_map]
  have h3 : (strTake desc 10).data.length ≤ 10 := by
    show (List.take 10 desc.data).length ≤ 10
    have := List.length_take 10 desc.data
    omega
  omega

theorem probeAux_or (base8 : String) (existing : List String) :
    ∀ fuel counter, probeAux base8 existing fuel counter ∉ existing ∨
      ∀ t < fuel, base8 ++ pad2 (counter + t) ∈ existing := by
  intro fuel
  induction fuel with
  | zero => intro counter; right; intro t ht; omega
  | succ n ih =>
    intro counter
    by_cases h : (base8 ++ pad2 counter) ∈ existing
    · have hstep : probeAux base8 existing (n + 1) counter
          = probeAux base8 existing n (counter + 1) := by
        simp [probeAux, h]
      rcases ih (counter + 1) with hl | hr
      · left; rwa [hstep]
      · right
        intro t ht
        cases t with
        | zero => simpa using h
        | succ t' =>
          have := hr t' (by omega)
          have harith : counter + 1 + t' = counter + (t' + 1) := by omega
          rwa [harith] at this
    · left
      have hstep : probeAux base8 existing (n + 1) counter = base8 ++ pad2 counter := by
        simp [probeAux, h]
      rwa [hstep]

theorem probeAux_form_bound (base8 : String) (existing : List String) :
    ∀ fuel counter, ∃ c, counter ≤ c ∧ c ≤ counter + fuel ∧
      probeAux base8 existing fuel counter = base8 ++ pad2 c := by
  intro fuel
  induction fuel with
  | zero => intro counter; exact ⟨counter, le_rfl, by omega, rfl⟩
  | succ n ih =>
    intro counter
    by_cases h : (base8 ++ pad2 counter) ∈ existing
    · have hstep : probeAux base8 existing (n + 1) counter
          = probeAux base8 existing n (counter + 1) := by
        simp [probeAux, h]
      obtain ⟨c, hc1, hc2, he⟩ := ih (counter + 1)
      exact ⟨c, by omega, by omega, by rw [hstep]; exact he⟩
    · exact ⟨counter, le_rfl, by omega, by simp [probeAux, h]⟩

theorem probeAux_not_mem (base8 : String) (existing : List String)
    (hex : existing.length ≤ 97) :
    probeAux base8 existing (existing.length + 1) 1 ∉ existing := by
  rcases probeAux_or base8 existing (existing.length + 1) 1 with h | hall
  · exact h
  · exfalso
    set L := (List.range (existing.length + 1)).map (fun t => base8 ++ pad2 (1 + t)) with hL
    have hnd : L.Nodup := by
      refine List.Nodup.map_on ?_ (List.nodup_range _)
      intro x hx y hy hxy
      rw [List.mem_range] at hx hy
      have hpad : pad2 (1 + x) = pad2 (1 + y) := strAppend_left_cancel hxy
      have := pad2_inj_small (1 + x) (by omega) (1 + y) (by omega) hpad
      omega
    have hsub : L ⊆ existing := by
      intro z hz
      rw [hL, List.mem_map] at hz
      obtain ⟨t, ht, rfl⟩ := hz
      rw [List.mem_range] at ht
      exact hall t ht
    have hlenL : L.length = existing.length + 1 := by
      rw [hL, List.length_map, List.length_range]
    have hcard : L.length ≤ existing.length := by
      calc L.length = L.toFinset.card := (List.toFinset_card_of_nodup hnd).symm
        _ ≤ existing.toFinset.card := Finset.card_le_card (by
            intro x hx
            rw [List.mem_toFinset] at hx ⊢
            exact hsub hx)
        _ ≤ existing.length := List.toFinset_card_le existing
    omega

theorem findFreeCode_spec (base : String) (existing : List String)
    (hb : base ≠ "") (hlen : base.length ≤ 10) (hex : existing.length ≤ 97) :
    findFreeCode base existing ∉ existing ∧ findFreeCode base existing ≠ "" ∧
    (findFreeCode base existing).length ≤ 10 := by
  unfold findFreeCode
  by_cases h : base ∈ existing
  · simp only [h, if_true]
    refine ⟨probeAux_not_mem _ _ hex, ?_, ?_⟩
    · obtain ⟨c, hc1, hc2, he⟩ := probeAux_form_bound (strTake base 8) existing
        (existing.length + 1) 1
      rw [he]
      have hp2 : (pad2 c).length = 2 := pad2_len_two c (by omega)
      intro hemp
      have hlen2 := congrArg String.length hemp
      rw [String.length_append, hp2] at hlen2
      have h0 : ("" : String).length = 0 := rfl
      omega
    · obtain ⟨c, hc1, hc2, he⟩ := probeAux_form_bound (strTake base 8) existing
        (existing.length + 1) 1
      rw [he, String.length_append]
      have hp2 : (pad2 c).length = 2 := pad2_len_two c (by omega)
      have ht8 := strTake_length_le base 8
      omega
  · rw [if_neg h]
    exact ⟨h, hb, hlen⟩

theorem truthyCodes_length_le (offs : List SqlRow) :
    (truthyCodes offs).length ≤ offs.length :=
  List.length_filterMap_le _ _

theorem truthy_exists_str {v : CellValue} (h : truthy v = true) :
    ∃ s, v = .str s ∧ s ≠ "" := by
  cases v with
  | null => simp [truthy] at h
  | str s =>
    refine ⟨s, rfl, ?_⟩
    simpa [truthy] using h

theorem mem_truthyCodes (offs : List SqlRow) (k : Nat) (r : SqlRow) (s : String)
    (hk : offs.get? k = some r) (hc : officeCode r = .str s) (hs : s ≠ "") :
    s ∈ truthyCodes offs := by
  unfold truthyCodes
  rw [List.mem_filterMap]
  refine ⟨r, List.get?_mem hk, ?_⟩
  rw [hc]
  simp [hs]

theorem getVal_setVal_self :
    ∀ (r : SqlRow) (k : String) (v : CellValue), getVal (setVal r k v) k = v := by
  intro r k v
  induction r with
  | nil => simp [setVal, getVal]
  | cons p rest ih =>
    obtain ⟨k0, w⟩ := p
    by_cases h : k0 = k
    · simp [setVal, getVal, h]
    · simp [setVal, getVal, h, ih]

theorem filterMap_two_not_nodup {α β : Type} (f : α → Option β) :
    ∀ (l : List α) (k1 k2 : Nat) (a1 a2 : α) (b : β), k1 < k2 →
      l.get? k1 = some a1 → l.get? k2 = some a2 → f a1 = some b → f a2 = some b →
      ¬ (l.filterMap f).Nodup := by
  intro l
  induction l with
  | nil => intro k1 k2 a1 a2 b _ hk1; simp [List.get?] at hk1
  | cons a rest ih =>
    intro k1 k2 a1 a2 b h12 hk1 hk2 hf1 hf2 hnd
    cases k1 with
    | zero =>
      have ha : a = a1 := by simpa using hk1
      subst ha
      obtain ⟨k2', rfl⟩ : ∃ k2', k2 = k2' + 1 := ⟨k2 - 1, by omega⟩
      have hmem : b ∈ rest.filterMap f :=
        List.mem_filterMap.mpr ⟨a2, List.get?_mem (by simpa using hk2), hf2⟩
      rw [List.filterMap_cons, hf1] at hnd
      exact (List.nodup_cons.mp hnd).1 hmem
    | succ k1' =>
      obtain ⟨k2', rfl⟩ : ∃ k2', k2 = k2' + 1 := ⟨k2 - 1, by omega⟩
      refine ih k1' k2' a1 a2 b (by omega) (by simpa using hk1) (by simpa using hk2)
        hf1 hf2 ?_
      rw [List.filterMap_cons] at hnd
      cases hf : f a with
      | none => rwa [hf] at hnd
      | some b0 =>
        rw [hf] at hnd
        exact (List.nodup_cons.mp hnd).2

theorem codes_distinct_of_nodup (offs : List SqlRow)
    (hnd : (truthyCodes offs).Nodup) :
    ∀ k l rk rl, k ≠ l → offs.get? k = some rk → offs.get? l = some rl →
      truthy (officeCode rk) = true → truthy (officeCode rl) = true →
      officeCode rk ≠ officeCode rl := by
  intro k l rk rl hkl hk hl htk htl heq
  obtain ⟨s, hs, hsne⟩ := truthy_exists_str htk
  have hsl : officeCode rl = .str s := by rw [← heq, hs]
  have hfk : (fun r => match officeCode r with
      | .str s => if s = "" then none else some s
      | .null => none) rk = some s := by
    show (match officeCode rk with
      | CellValue.str s => if s = "" then none else some s
      | CellValue.null => none) = some s
    rw [hs]
    simp [hsne]
  have hfl : (fun r => match officeCode r with
      | .str s => if s = "" then none else some s
      | .null => none) rl = some s := by
    show (match officeCode rl with
      | CellValue.str s => if s = "" then none else some s
      | CellValue.null => none) = some s
    rw [hsl]
    simp [hsne]
  rcases Nat.lt_or_ge k l with h | h
  · exact filterMap_two_not_nodup _ offs k l rk rl s h hk hl hfk hfl hnd
  · have hlt : l < k := by omega
    exact filterMap_two_not_nodup _ offs l k rl rk s hlt hl hk hfl hfk hnd

theorem get?_set_self {l : List SqlRow} {n : Nat} {a r : SqlRow} (h : l.get? n = some r) :
    (l.set n a).get? n = some a := by
  rw [List.get?_set_eq, h]
  rfl

theorem reconcileGo_invariant (offs0 : List SqlRow)
    (hbase : ∀ k r, offs0.get? k = some r → truthy (officeCode r) = false →
        baseCodeOf (cellStr (officeDesc r)) ≠ "")
    (hn : offs0.length ≤ 97) :
    ∀ rem i offs gen,
      offs.length = offs0.length →
      (∀ k, i ≤ k → offs.get? k = offs0.get? k) →
      (∀ k, k < i → ∀ r0, offs0.get? k = some r0 →
        (truthy (officeCode r0) = true → offs.get? k = some r0) ∧
        (truthy (officeCode r0) = false → ∃ c : String, c ≠ "" ∧ c.length ≤ 10 ∧
           offs.get? k = some (setVal r0 "OfficeCode" (.str c)))) →
      (∀ k l rk rl, k ≠ l → offs.get? k = some rk → offs.get? l = some rl →
        truthy (officeCode rk) = true → truthy (officeCode rl) = true →
        officeCode rk ≠ officeCode rl) →
      ((reconcileGo rem i offs gen).1.length = offs0.length ∧
       (∀ k, i + rem ≤ k → (reconcileGo rem i offs gen).1.get? k = offs0.get? k) ∧
       (∀ k, k < i + rem → ∀ r0, offs0.get? k = some r0 →
         (truthy (officeCode r0) = true → (reconcileGo rem i offs gen).1.get? k = some r0) ∧
         (truthy (officeCode r0) = false → ∃ c : String, c ≠ "" ∧ c.length ≤ 10 ∧
            (reconcileGo rem i offs gen).1.get? k
              = some (setVal r0 "OfficeCode" (.str c)))) ∧
       (∀ k l rk rl, k ≠ l → (reconcileGo rem i offs gen).1.get? k = some rk →
         (reconcileGo rem i offs gen).1.get? l = some rl →
         truthy (officeCode rk) = true → truthy (officeCode rl) = true →
         officeCode rk ≠ officeCode rl)) := by
  intro rem
  induction rem with
  | zero =>
    intro i offs gen hlen hsuf hpre hdist
    exact ⟨hlen, hsuf, hpre, hdist⟩
  | succ n ih =>
    intro i offs gen hlen hsuf hpre hdist
    have hgo : reconcileGo (n + 1) i offs gen
        = reconcileGo n (i + 1) (reconcileStep offs gen i).1 (reconcileStep offs gen i).2 :=
      rfl
    cases hsome : offs.get? i with
    | none =>
      have hst : reconcileStep offs gen i = (offs, gen) := by
        unfold reconcileStep
        rw [hsome]
      rw [hgo, hst]
      have hpre' : ∀ k, k < i + 1 → ∀ r0, offs0.get? k = some r0 →
          (truthy (officeCode r0) = true → offs.get? k = some r0) ∧
          (truthy (officeCode r0) = false → ∃ c : String, c ≠ "" ∧ c.length ≤ 10 ∧
             offs.get? k = some (setVal r0 "OfficeCode" (.str c))) := by
        intro k hk r0 hr0
        by_cases hki : k < i
        · exact hpre k hki r0 hr0
        · have hki' : k = i := by omega
          subst hki'
          rw [← hsuf k (le_refl k)] at hr0
          rw [hsome] at hr0
          exact Option.noConfusion hr0
      have hres := ih (i + 1) offs gen hlen (fun k hk => hsuf k (by omega)) hpre' hdist
      have harith : i + 1 + n = i + (n + 1) := by omega
      rw [harith] at hres
      exact hres
    | some off =>
      have harm : reconcileStep offs gen i
          = if truthy (officeCode off) = true then (offs, gen)
            else (offs.set i (setVal off "OfficeCode"
                (.str (findFreeCode (baseCodeOf (cellStr (officeDesc off)))
                  (truthyCodes offs)))),
              setAssoc gen (cellStr (officeDesc off))
                (findFreeCode (baseCodeOf (cellStr (officeDesc off))) (truthyCodes offs))) := by
        unfold reconcileStep
        rw [hsome]
      by_cases htr : truthy (officeCode off) = true
      · have hst : reconcileStep offs gen i = (offs, gen) := by
          rw [harm, if_pos htr]
        rw [hgo, hst]
        have hpre' : ∀ k, k < i + 1 → ∀ r0, offs0.get? k = some r0 →
            (truthy (officeCode r0) = true → offs.get? k = some r0) ∧
            (truthy (officeCode r0) = false → ∃ c : String, c ≠ "" ∧ c.length ≤ 10 ∧
               offs.get? k = some (setVal r0 "OfficeCode" (.str c))) := by
          intro k hk r0 hr0
          by_cases hki : k < i
          · exact hpre k hki r0 hr0
          · have hki' : k = i := by omega
            subst hki'
            have hoffr : r0 = off := by
              rw [← hsuf k (le_refl k)] at hr0
              rw [hsome] at hr0
              exact (Option.some.inj hr0).symm
            subst hoffr
            constructor
            · intro _; exact hsome
            · intro hf
              rw [htr] at hf
              exact Bool.noConfusion hf
        have hres := ih (i + 1) offs gen hlen (fun k hk => hsuf k (by omega)) hpre' hdist
        have harith : i + 1 + n = i + (n + 1) := by omega
        rw [harith] at hres
        exact hres
      · have htrf : truthy (officeCode off) = false := by
          rw [Bool.not_eq_true] at htr
          exact htr
        have hoff0 : offs0.get? i = some off := by
          rw [← hsuf i (le_refl i)]
          exact hsome
        have hbne : baseCodeOf (cellStr (officeDesc off)) ≠ "" := hbase i off hoff0 htrf
        have hex : (truthyCodes offs).length ≤ 97 := by
          have h1 := truthyCodes_length_le offs
          omega
        obtain ⟨hnm, hcne, hcle⟩ := findFreeCode_spec (baseCodeOf (cellStr (officeDesc off)))
          (truthyCodes offs) hbne (baseCodeOf_length_le _) hex
        have hst : reconcileStep offs gen i
            = (offs.set i (setVal off "OfficeCode"
                (.str (findFreeCode (baseCodeOf (cellStr (officeDesc off)))
                  (truthyCodes offs)))),
               setAssoc gen (cellStr (officeDesc off))
                (findFreeCode (baseCodeOf (cellStr (officeDesc off))) (truthyCodes offs))) := by
          rw [harm, if_neg htr]
        rw [hgo, hst]
        set c := findFreeCode (baseCodeOf (cellStr (officeDesc off))) (truthyCodes offs)
          with hc
        have hgeti : (offs.set i (setVal off "OfficeCode" (.str c))).get? i
            = some (setVal off "OfficeCode" (.str c)) := get?_set_self hsome
        have hlen' : (offs.set i (setVal off "OfficeCode" (.str c))).length
            = offs0.length := by
          rw [List.length_set]
          exact hlen
        have hsuf' : ∀ k, i + 1 ≤ k →
            (offs.set i (setVal off "OfficeCode" (.str c))).get? k = offs0.get? k := by
          intro k hk
          rw [List.get?_set_ne _ _ (by omega : i ≠ k)]
          exact hsuf k (by omega)
        have hpre' : ∀ k, k < i + 1 → ∀ r0, offs0.get? k = some r0 →
            (truthy (officeCode r0) = true →
              (offs.set i (setVal off "OfficeCode" (.str c))).get? k = some r0) ∧
            (truthy (officeCode r0) = false → ∃ c0 : String, c0 ≠ "" ∧ c0.length ≤ 10 ∧
               (offs.set i (setVal off "OfficeCode" (.str c))).get? k
                 = some (setVal r0 "OfficeCode" (.str c0))) := by
          intro k hk r0 hr0
          by_cases hki : k < i
          · obtain ⟨h1, h2⟩ := hpre k hki r0 hr0
            constructor
            · intro ht
              rw [List.get?_set_ne _ _ (by omega : i ≠ k)]
              exact h1 ht
            · intro hf
              obtain ⟨c0, hc1, hc2, hc3⟩ := h2 hf
              exact ⟨c0, hc1, hc2, by
                rw [List.get?_set_ne _ _ (by omega : i ≠ k)]
                exact hc3⟩
          · have hki' : k = i := by omega
            subst hki'
            have hoffr : r0 = off := by
              rw [hoff0] at hr0
              exact (Option.some.inj hr0).symm
            subst hoffr
            constructor
            · intro ht
              rw [ht] at htrf
              exact Bool.noConfusion htrf
            · intro _
              exact ⟨c, hcne, hcle, hgeti⟩
        have hdist' : ∀ k l rk rl, k ≠ l →
            (offs.set i (setVal off "OfficeCode" (.str c))).get? k = some rk →
            (offs.set i (setVal off "OfficeCode" (.str c))).get? l = some rl →
            truthy (officeCode rk) = true → truthy (officeCode rl) = true →
            officeCode rk ≠ officeCode rl := by
          intro k l rk rl hkl hk hl htk htl
          have hcodeset : officeCode (setVal off "OfficeCode" (.str c)) = .str c :=
            getVal_setVal_self off "OfficeCode" (.str c)
          by_cases hki : k = i
          · subst hki
            rw [hgeti] at hk
            have hrk : rk = setVal off "OfficeCode" (.str c) := (Option.some.inj hk).symm
            subst hrk
            have hl' : offs.get? l = some rl := by
              rw [List.get?_set_ne _ _ (fun he => hkl he)] at hl
              exact hl
            obtain ⟨s', hs', hsne'⟩ := truthy_exists_str htl
            have hmem : s' ∈ truthyCodes offs := mem_truthyCodes offs l rl s' hl' hs' hsne'
            rw [hcodeset, hs']
            intro heq
            have hcs' : c = s' := CellValue.str.inj heq
            rw [hcs'] at hnm
            exact hnm hmem
          · by_cases hli : l = i
            · subst hli
              rw [hgeti] at hl
              have hrl : rl = setVal off "OfficeCode" (.str c) := (Option.some.inj hl).symm
              subst hrl
              have hk' : offs.get? k = some rk := by
                rw [List.get?_set_ne _ _ (Ne.symm hki)] at hk
                exact hk
              obtain ⟨s', hs', hsne'⟩ := truthy_exists_str htk
              have hmem : s' ∈ truthyCodes offs := mem_truthyCodes offs k rk s' hk' hs' hsne'
              rw [hcodeset, hs']
              intro heq
              have hcs' : s' = c := CellValue.str.inj heq
              rw [← hcs'] at hnm
              exact hnm hmem
            · have hk' : offs.get? k = some rk := by
                rw [List.get?_set_ne _ _ (Ne.symm hki)] at hk
                exact hk
              have hl' : offs.get? l = some rl := by
                rw [List.get?_set_ne _ _ (Ne.symm hli)] at hl
                exact hl
              exact hdist k l rk rl hkl hk' hl' htk htl
        have hres := ih (i + 1) (offs.set i (setVal off "OfficeCode" (.str c)))
          (setAssoc gen (cellStr (officeDesc off)) c) hlen' hsuf' hpre' hdist'
        have harith : i + 1 + n = i + (n + 1) := by omega
        rw [harith] at hres
        exact hres

/-! ### Claim C7 — reconciliation invariants -/

/-- Claim C7 (counterexample): a batch of two records with descriptions that
both carry the sentinel code "Data" produces no validation error at all
(so no critical error exists and reconciliation runs), yet after
reconciliation the two records still carry equal codes — the claimed
batch-wide uniqueness fails because sentinel rows bypass duplicate
detection. -/
theorem claim_C7_counterexample :
    validateOfficeData
      [[("OfficeCode", CellValue.str "Data"), ("OfficeDesc", CellValue.str "One")],
       [("OfficeCode", CellValue.str "Data"), ("OfficeDesc", CellValue.str "Two")]] 2 = [] ∧
    (reconcileOffices
      [[("OfficeCode", CellValue.str "Data"), ("OfficeDesc", CellValue.str "One")],
       [("OfficeCode", CellValue.str "Data"), ("OfficeDesc", CellValue.str "Two")]]).1.map
      officeCode = [.str "Data", .str "Data"] := by decide

/-- Claim C7 (amended): for a batch of at most 97 records whose present
(truthy) codes are pairwise distinct (which excludes duplicated sentinel
codes), and in which every record lacking a code has at least one ASCII
letter or digit among the first 10 characters of its description, after
reconciliation every record that was missing its officeCode carries a
non-null, nonempty code of length at most 10, every record's code is
truthy, and no two records in the batch carry equal codes. -/
theorem claim_C7_amended (offs0 : List SqlRow)
    (hn : offs0.length ≤ 97)
    (hnd : (truthyCodes offs0).Nodup)
    (hbase : ∀ k r, offs0.get? k = some r → truthy (officeCode r) = false →
        baseCodeOf (cellStr (officeDesc r)) ≠ "") :
    (∀ k r0, offs0.get? k = some r0 → truthy (officeCode r0) = false →
        ∃ c : String, c ≠ "" ∧ c.length ≤ 10 ∧
          (reconcileOffices offs0).1.get? k = some (setVal r0 "OfficeCode" (.str c))) ∧
    (∀ k r, (reconcileOffices offs0).1.get? k = some r →
        truthy (officeCode r) = true) ∧
    (∀ k l rk rl, k ≠ l → (reconcileOffices offs0).1.get? k = some rk →
        (reconcileOffices offs0).1.get? l = some rl →
        officeCode rk ≠ officeCode rl) := by
  have hinv := reconcileGo_invariant offs0 hbase hn offs0.length 0 offs0 []
    rfl (fun k _ => rfl) (fun k hk => absurd hk (by omega))
    (codes_distinct_of_nodup offs0 hnd)
  obtain ⟨hlen0, hsuf0, hpre0, hdist0⟩ := hinv
  have hzero : (0 : Nat) + offs0.length = offs0.length := by omega
  rw [hzero] at hpre0
  have hlen : (reconcileOffices offs0).1.length = offs0.length := hlen0
  have hpre : ∀ k, k < offs0.length → ∀ r0, offs0.get? k = some r0 →
      (truthy (officeCode r0) = true → (reconcileOffices offs0).1.get? k = some r0) ∧
      (truthy (officeCode r0) = false → ∃ c : String, c ≠ "" ∧ c.length ≤ 10 ∧
         (reconcileOffices offs0).1.get? k = some (setVal r0 "OfficeCode" (.str c))) :=
    hpre0
  have hdist : ∀ k l rk rl, k ≠ l → (reconcileOffices offs0).1.get? k = some rk →
      (reconcileOffices offs0).1.get? l = some rl →
      truthy (officeCode rk) = true → truthy (officeCode rl) = true →
      officeCode rk ≠ officeCode rl := hdist0
  have htruthy : ∀ k r, (reconcileOffices offs0).1.get? k = some r →
      truthy (officeCode r) = true := by
    intro k r hk
    have hklt : k < offs0.length := by
      by_contra hge
      have hnone : (reconcileOffices offs0).1.get? k = none := by
        apply List.get?_eq_none.mpr
        omega
      rw [hnone] at hk
      exact Option.noConfusion hk
    obtain ⟨r0, hr0⟩ : ∃ r0, offs0.get? k = some r0 := by
      cases ho : offs0.get? k with
      | none =>
        have := List.get?_eq_none.mp ho
        omega
      | some x => exact ⟨x, rfl⟩
    obtain ⟨h1, h2⟩ := hpre k hklt r0 hr0
    cases htr0 : truthy (officeCode r0) with
    | true =>
      have hk0 := h1 htr0
      rw [hk0] at hk
      have hrr : r = r0 := (Option.some.inj hk).symm
      rw [hrr]
      exact htr0
    | false =>
      obtain ⟨c, hc1, _, hc3⟩ := h2 htr0
      rw [hc3] at hk
      have hrr : r = setVal r0 "OfficeCode" (.str c) := (Option.some.inj hk).symm
      have hcode : officeCode (setVal r0 "OfficeCode" (.str c)) = .str c :=
        getVal_setVal_self r0 "OfficeCode" (.str c)
      rw [hrr, hcode]
      simp [truthy, hc1]
  refine ⟨?_, htruthy, ?_⟩
  · intro k r0 hk hf
    have hklt : k < offs0.length := by
      by_contra hge
      have hnone : offs0.get? k = none := List.get?_eq_none.mpr (by omega)
      rw [hnone] at hk
      exact Option.noConfusion hk
    exact (hpre k hklt r0 hk).2 hf
  · intro k l rk rl hkl hk hl
    exact hdist k l rk rl hkl hk hl (htruthy k rk hk) (htruthy l rl hl)

/-- Witness for claim C7's amended theorem: a two-record batch with explicit
code "HQ" and a missing code whose description is "Cape Town Branch!!". -/
theorem claim_C7_witness :
    ([[("OfficeCode", CellValue.str "HQ"), ("OfficeDesc", CellValue.str "Head Office")],
      [("OfficeDesc", CellValue.str "Cape Town Branch!!")]] : List SqlRow).length ≤ 97 ∧
    (truthyCodes
      [[("OfficeCode", CellValue.str "HQ"), ("OfficeDesc", CellValue.str "Head Office")],
       [("OfficeDesc", CellValue.str "Cape Town Branch!!")]]).Nodup ∧
    (∃ c : String, c ≠ "" ∧ c.length ≤ 10 ∧
      (reconcileOffices
        [[("OfficeCode", CellValue.str "HQ"), ("OfficeDesc", CellValue.str "Head Office")],
         [("OfficeDesc", CellValue.str "Cape Town Branch!!")]]).1.get? 1
        = some (setVal [("OfficeDesc", CellValue.str "Cape Town Branch!!")]
            "OfficeCode" (.str c))) := by
  refine ⟨by decide, by decide, ?_⟩
  have hbase : ∀ k r,
      ([[("OfficeCode", CellValue.str "HQ"), ("OfficeDesc", CellValue.str "Head Office")],
        [("OfficeDesc", CellValue.str "Cape Town Branch!!")]] : List SqlRow).get? k = some r →
      truthy (officeCode r) = false → baseCodeOf (cellStr (officeDesc r)) ≠ "" := by
    intro k r hk hf
    match k with
    | 0 =>
      have hr : r = [("OfficeCode", CellValue.str "HQ"),
          ("OfficeDesc", CellValue.str "Head Office")] := (Option.some.inj hk).symm
      rw [hr] at hf
      exact absurd hf (by decide)
    | 1 =>
      have hr : r = [("OfficeDesc", CellValue.str "Cape Town Branch!!")] :=
        (Option.some.inj hk).symm
      rw [hr]
      decide
    | (m + 2) => exact Option.noConfusion hk
  exact (claim_C7_amended
    [[("OfficeCode", CellValue.str "HQ"), ("OfficeDesc", CellValue.str "Head Office")],
     [("OfficeDesc", CellValue.str "Cape Town Branch!!")]]
    (by decide) (by decide) hbase).1
    1 [("OfficeDesc", CellValue.str "Cape Town Branch!!")] rfl (by decide)
